import Mathlib

/-
  Shallow embedding of the `ethers-nonce` crate (file src/lib.rs):
  `LockedNonceManagerMiddleware<M>`, a nonce-managing decorator over an inner
  ethers `Middleware`.

  Modelling choices, justified against the source:

  * `U256` values are `Nat`s below `2 ^ 256`.  The only arithmetic the crate
    performs on them is `nonce + U256::from(1u32)` (lines 114 and 155) and
    comparisons;  `primitive_types::U256` addition panics on overflow, so the
    increment is modelled by `u256AddOne : Nat → Option Nat`, `none` meaning a
    panic.

  * The mutable manager state (`initialized: AtomicBool`, `nonce: RwLock<U256>`)
    is the structure `NonceState`.  The inner middleware is an oracle: each
    model function takes the responses the inner would give to the calls the
    code can make, in source order (`Except ε` mirrors `Result<_, M::Error>`).

  * The lock.  `self.nonce` is a `tokio::sync::RwLock`, which is fair and not
    reentrant: a task that holds the write guard and awaits a second
    acquisition of the same lock (read or write) blocks forever.
    `fill_transaction` and `send_transaction` take the write guard at entry
    (lines 100 and 129) and keep it for the whole call, while
    `get_or_init_nonce` internally acquires the write lock (line 58) and, via
    `next()`, the read lock (line 43).  `get_or_init_nonce` is therefore
    modelled with an explicit `holdingWrite : Bool` flag telling whether the
    calling task already holds the write guard; a re-acquisition under
    `holdingWrite = true` is the `MWOutcome.diverge` outcome (the call never
    completes; the state recorded is the state at the moment of blocking).

  * Every outcome carries a `CallLog` counting the calls made into the inner
    middleware: remote `get_transaction_count` queries, the nonce field of the
    transaction at each inner `send_transaction` broadcast, and inner
    `fill_transaction` calls.
-/

namespace EthersNonce

/-- Exclusive upper bound of the `U256` type: `2 ^ 256`. -/
def U256_LIMIT : Nat := 2 ^ 256

/-- Model of `nonce + U256::from(1u32)` (src/lib.rs lines 114, 155):
`primitive_types::U256` addition panics on overflow, so the result is `none`
when the successor would not fit in 256 bits. -/
def u256AddOne (n : Nat) : Option Nat :=
  if n + 1 < U256_LIMIT then some (n + 1) else none

/-- The mutable state of a `LockedNonceManagerMiddleware`: the
`initialized: AtomicBool` one-shot flag and the `nonce: RwLock<U256>` counter
(src/lib.rs lines 11-16). -/
structure NonceState where
  initialized : Bool
  nonce : Nat
deriving Repr, DecidableEq

/-- `LockedNonceManagerMiddleware::new` (src/lib.rs lines 24-31): state starts
uninitialized with a zero nonce. -/
def newState : NonceState := ⟨false, 0⟩

/-- Log of the calls a single manager operation makes into the inner
middleware: number of `get_transaction_count` queries, the nonce field of the
transaction at each inner `send_transaction` broadcast (in order), and the
number of inner `fill_transaction` calls. -/
structure CallLog where
  queries : Nat
  sentNonces : List (Option Nat)
  fills : Nat
deriving Repr, DecidableEq

/-- The empty call log, at the entry of each manager operation. -/
def CallLog.empty : CallLog := ⟨0, [], 0⟩

/-- `NonceManagerError<M>` (src/lib.rs lines 67-73): the single error kind,
wrapping the inner middleware's error. -/
inductive NonceManagerError (ε : Type) where
  | MiddlewareError (e : ε)
deriving Repr, DecidableEq

/-- Outcome of one manager operation: normal return `ok`, error return `err`
(always a `NonceManagerError`), `diverge` (the task blocks forever awaiting a
lock it can never get; the recorded state is the state at the moment of
blocking), or `panicked` (a `U256` overflow panic). -/
inductive MWOutcome (ε α : Type) where
  | ok (a : α) (st : NonceState) (lg : CallLog)
  | err (e : NonceManagerError ε) (st : NonceState) (lg : CallLog)
  | diverge (st : NonceState) (lg : CallLog)
  | panicked (st : NonceState) (lg : CallLog)
deriving Repr, DecidableEq

/-- The call log carried by an outcome. -/
def MWOutcome.lg {ε α : Type} : MWOutcome ε α → CallLog
  | .ok _ _ l => l
  | .err _ _ l => l
  | .diverge _ l => l
  | .panicked _ l => l

/-- `next` (src/lib.rs lines 42-45): read the stored nonce under the read
lock.  In the sequential model this is the projection. -/
def next (st : NonceState) : Nat := st.nonce

/-- `get_or_init_nonce` (src/lib.rs lines 47-64).  `holdingWrite` records
whether the calling task already holds the write guard of `self.nonce` (true
when called from `fill_transaction` / `send_transaction`, false when called
from `initialize_nonce`).  When the state is uninitialized the remote
transaction count is queried first (line 53-57, error propagates before any
mutation); then `self.nonce.write().await` (line 58) blocks forever if the
caller already holds the guard.  The trailing `Ok(self.next().await)`
(line 63) acquires the read lock, which likewise blocks forever under
`holdingWrite`. -/
def get_or_init_nonce {ε : Type} (holdingWrite : Bool) (st : NonceState)
    (lg : CallLog) (countResp : Except ε Nat) : MWOutcome ε Nat :=
  if !st.initialized then
    let lg' : CallLog := { lg with queries := lg.queries + 1 }
    match countResp with
    | .error e => .err (.MiddlewareError e) st lg'
    | .ok n =>
      if holdingWrite then
        .diverge st lg'
      else
        .ok n { st with nonce := n, initialized := true } lg'
  else
    if holdingWrite then .diverge st lg
    else .ok st.nonce st lg

/-- `initialize_nonce` (src/lib.rs lines 34-39): delegates to
`get_or_init_nonce`, called without holding any guard. -/
def initialize_nonce {ε : Type} (st : NonceState)
    (countResp : Except ε Nat) : MWOutcome ε Nat :=
  get_or_init_nonce false st CallLog.empty countResp

/-- Tail of `fill_transaction` after the nonce-assignment step (src/lib.rs
lines 108-116): call the inner `fill_transaction`, propagate its error without
mutating state, otherwise store `nonce + 1` (panicking on `U256` overflow) and
return.  `txN` is the transaction's nonce field at this point; `nonce` is the
local variable `nonce` of the Rust function. -/
def fill_tail {ε : Type} (st : NonceState) (lg : CallLog) (nonce : Nat)
    (txN : Option Nat) (fillResp : Except ε Unit) : MWOutcome ε (Option Nat) :=
  let lg' : CallLog := { lg with fills := lg.fills + 1 }
  match fillResp with
  | .error e => .err (.MiddlewareError e) st lg'
  | .ok _ =>
    match u256AddOne nonce with
    | none => .panicked st lg'
    | some n1 => .ok txN { st with nonce := n1 } lg'

/-- `fill_transaction` (src/lib.rs lines 95-117).  Takes the write guard,
reads the stored value into `nonce`; when the transaction has no nonce it
calls `get_or_init_nonce` (still holding the guard) and assigns the result
onto the transaction; then delegates to the inner fill and on success stores
`nonce + 1`.  `initCount` is the inner's response to the remote-count query,
consumed only when lazy initialization actually queries.  The returned value
is the transaction's nonce field after the call. -/
def fill_transaction {ε : Type} (st0 : NonceState) (txNonce : Option Nat)
    (initCount : Except ε Nat) (fillResp : Except ε Unit) :
    MWOutcome ε (Option Nat) :=
  let nonce := st0.nonce
  match txNonce with
  | none =>
    match get_or_init_nonce true st0 CallLog.empty initCount with
    | .ok n st1 lg1 => fill_tail st1 lg1 n (some n) fillResp
    | .err e st1 lg1 => .err e st1 lg1
    | .diverge st1 lg1 => .diverge st1 lg1
    | .panicked st1 lg1 => .panicked st1 lg1
  | some _ => fill_tail st0 CallLog.empty nonce txNonce fillResp

/-- End of the success path of `send_transaction` (src/lib.rs line 155):
`*write_guard = nonce + U256::from(1u32)`, then return the handle. -/
def send_finish {ε η : Type} (st : NonceState) (lg : CallLog) (nonce : Nat)
    (h : η) : MWOutcome ε η :=
  match u256AddOne nonce with
  | none => .panicked st lg
  | some n1 => .ok h { st with nonce := n1 } lg

/-- Broadcast-and-recover part of `send_transaction` (src/lib.rs lines
137-157).  First broadcast with the transaction's current nonce field `txN`;
on failure, query the remote count (`self.get_transaction_count` delegates to
the inner and wraps its error, line 140); if `remote > nonce` store the remote
count, set the stale local `nonce` back onto the transaction (line 143) and
retry exactly once, otherwise propagate the original error unchanged.  After
the surrounding `?` (line 153) succeeds, store `nonce + 1` (line 155). -/
def send_tail {ε η : Type} (st : NonceState) (lg : CallLog) (nonce : Nat)
    (txN : Option Nat) (send1 : Except ε η) (queryCount : Except ε Nat)
    (send2 : Except ε η) : MWOutcome ε η :=
  let lg1 : CallLog := { lg with sentNonces := lg.sentNonces ++ [txN] }
  match send1 with
  | .ok h => send_finish st lg1 nonce h
  | .error err =>
    let lg2 : CallLog := { lg1 with queries := lg1.queries + 1 }
    match queryCount with
    | .error qe => .err (.MiddlewareError qe) st lg2
    | .ok current =>
      if nonce < current then
        let st' : NonceState := { st with nonce := current }
        let lg3 : CallLog := { lg2 with sentNonces := lg2.sentNonces ++ [some nonce] }
        match send2 with
        | .ok h => send_finish st' lg3 nonce h
        | .error e2 => .err (.MiddlewareError e2) st' lg3
      else
        .err (.MiddlewareError err) st lg2

/-- `send_transaction` (src/lib.rs lines 122-158).  Takes the write guard,
reads the stored value into `nonce`; when the transaction has no nonce it
calls `get_or_init_nonce` (still holding the guard) and assigns the result;
then broadcasts with the single-retry recovery of `send_tail`.  Oracle
responses, in the order the code can consume them: `initCount` (lazy-init
remote count), `send1` (first broadcast), `queryCount` (post-failure remote
count), `send2` (retry broadcast). -/
def send_transaction {ε η : Type} (st0 : NonceState) (txNonce : Option Nat)
    (initCount : Except ε Nat) (send1 : Except ε η)
    (queryCount : Except ε Nat) (send2 : Except ε η) : MWOutcome ε η :=
  let nonce := st0.nonce
  match txNonce with
  | none =>
    match get_or_init_nonce true st0 CallLog.empty initCount with
    | .ok n st1 lg1 => send_tail st1 lg1 n (some n) send1 queryCount send2
    | .err e st1 lg1 => .err e st1 lg1
    | .diverge st1 lg1 => .diverge st1 lg1
    | .panicked st1 lg1 => .panicked st1 lg1
  | some _ => send_tail st0 CallLog.empty nonce txNonce send1 queryCount send2

end EthersNonce

namespace EthersNonce

/-- C2: a fill or send call whose transaction carries no explicit nonce is
claimed to lazily initialize under the single write-guard acquisition and to
complete.  The code instead re-enters the `RwLock` from `get_or_init_nonce`
while `fill_transaction` / `send_transaction` still hold the write guard, so
the call blocks forever: on a fresh manager the fill blocks at
`self.nonce.write().await` after a successful remote query, and on an
initialized manager the send blocks at the read acquisition inside `next()`.
State and log at the blocking point are as the code left them. -/
theorem c2_deadlock :
    fill_transaction (ε := Nat) ⟨false, 0⟩ none (.ok 7) (.ok ())
      = .diverge ⟨false, 0⟩ ⟨1, [], 0⟩ ∧
    send_transaction (ε := Nat) (η := Nat) ⟨true, 3⟩ none (.ok 7) (.ok 42) (.ok 0) (.ok 0)
      = .diverge ⟨true, 3⟩ ⟨0, [], 0⟩ := by
  exact ⟨rfl, rfl⟩

/-- C5: the spec's fresh-manager scenario (remote count 5 at first use, first
`fill_transaction` with no explicit nonce assigns nonce 5 and leaves stored
value 6).  On the code the first such fill never completes: after the remote
query returns 5 the call blocks forever re-acquiring `self.nonce` inside
`get_or_init_nonce`, with the state still uninitialized and unchanged. -/
theorem c5_deadlock :
    fill_transaction (ε := Nat) ⟨false, 0⟩ none (.ok 5) (.ok ())
      = .diverge ⟨false, 0⟩ ⟨1, [], 0⟩ := by
  exact rfl

/-- C10: a send whose first broadcast fails and whose follow-up remote-count
query itself errors returns the query's error (the original broadcast error
is discarded), performs no retry (exactly one broadcast in the log), and
leaves the stored state unchanged. -/
theorem c10_query_error {ε η : Type} (st : NonceState) (E : Nat)
    (ic : Except ε Nat) (err qe : ε) (s2 : Except ε η) :
    send_transaction st (some E) ic (.error err) (.error qe) s2
      = .err (.MiddlewareError qe) st ⟨1, [some E], 0⟩ := by
  simp [send_transaction, send_tail, CallLog.empty]

/-- C3: a send with stored value `L` whose first broadcast fails and whose
remote-count query returns `R ≤ L` returns the original broadcast error
(wrapped once in `MiddlewareError`), leaves the stored state unchanged at `L`,
and attempts no retry. -/
theorem c3_no_recovery {ε η : Type} (st : NonceState) (E R : Nat)
    (ic : Except ε Nat) (err : ε) (s2 : Except ε η) (hle : R ≤ st.nonce) :
    send_transaction st (some E) ic (.error err) (.ok R) s2
      = .err (.MiddlewareError err) st ⟨1, [some E], 0⟩ := by
  simp [send_transaction, send_tail, CallLog.empty, Nat.not_lt.mpr hle]

/-- C3 witness: stored value 7, first broadcast fails, remote count 6 ≤ 7. -/
theorem c3_no_recovery_witness :
    send_transaction (η := Nat) ⟨true, 7⟩ (some 7) (.ok 0) (.error 11) (.ok 6) (.ok 99)
      = .err (.MiddlewareError 11) ⟨true, 7⟩ ⟨1, [some 7], 0⟩ :=
  c3_no_recovery ⟨true, 7⟩ 7 6 (.ok 0) 11 (.ok 99) (by decide)

end EthersNonce

namespace EthersNonce

/-- C4: when the first broadcast fails and the remote count `R` exceeds the
stored value, the retry broadcast carries the stale stored value read at entry
(never `R`): for a transaction that carried explicit nonce `E`, the broadcast
log is `[some E, some st.nonce]` whatever the retry's outcome — the retry
overwrote `E` with the stored value via `tx.set_nonce(nonce)` (line 143). -/
theorem c4_retry_uses_stale_local {ε η : Type} (st : NonceState) (E R : Nat)
    (ic : Except ε Nat) (err : ε) (s2 : Except ε η) (hgt : st.nonce < R) :
    (send_transaction st (some E) ic (.error err) (.ok R) s2).lg
      = ⟨1, [some E, some st.nonce], 0⟩ := by
  cases s2 with
  | ok h =>
    simp only [send_transaction, send_tail, CallLog.empty, if_pos hgt, send_finish]
    cases hA : u256AddOne st.nonce with
    | none => simp [MWOutcome.lg]
    | some n1 => simp [MWOutcome.lg]
  | error e2 =>
    simp [send_transaction, send_tail, CallLog.empty, if_pos hgt, MWOutcome.lg]

/-- C4 witness: stored value 5, explicit nonce 8, remote count 9; the retry is
broadcast with nonce 5 (the stale local), not 9 and not 8. -/
theorem c4_retry_uses_stale_local_witness :
    (send_transaction (η := Nat) ⟨true, 5⟩ (some 8) (.ok 0) (.error 1) (.ok 9) (.ok 42)).lg
      = ⟨1, [some 8, some 5], 0⟩ :=
  c4_retry_uses_stale_local ⟨true, 5⟩ 8 9 (.ok 0) 1 (.ok 42) (by decide)

/-- C1 counterexample: stored value 5, first broadcast fails, remote count
9 > 5, retry succeeds.  The claim says the stored value after the call is 9 in
this case too; the code stores 9 at line 142 but then overwrites it with
`nonce + 1 = 6` at line 155, so the final stored value is 6 ≠ 9. -/
theorem c1_counterexample :
    send_transaction (ε := Nat) (η := Nat) ⟨true, 5⟩ (some 5) (.ok 0) (.error 0) (.ok 9) (.ok 42)
      = .ok 42 ⟨true, 6⟩ ⟨1, [some 5, some 5], 0⟩ ∧ (6 : Nat) ≠ 9 := by
  exact ⟨rfl, by decide⟩

/-- C1 amended: with stored value `L`, a failing first broadcast and remote
count `R > L`, exactly one retry is attempted (two broadcasts in the log) and
its outcome is what the call returns; the stored value after the call is `R`
when the retry fails, but `L + 1` when the retry succeeds (the `R` written
before the retry is overwritten by line 155 on the success path). -/
theorem c1_amended {ε η : Type} (st : NonceState) (E R : Nat)
    (ic : Except ε Nat) (err e2 : ε) (h2 : η)
    (hgt : st.nonce < R) (hov : st.nonce + 1 < U256_LIMIT) :
    send_transaction st (some E) ic (.error err) (.ok R) (.ok h2)
      = .ok h2 ⟨st.initialized, st.nonce + 1⟩ ⟨1, [some E, some st.nonce], 0⟩ ∧
    send_transaction (η := η) st (some E) ic (.error err) (.ok R) (.error e2)
      = .err (.MiddlewareError e2) ⟨st.initialized, R⟩ ⟨1, [some E, some st.nonce], 0⟩ := by
  constructor
  · simp [send_transaction, send_tail, CallLog.empty, if_pos hgt, send_finish,
      u256AddOne, hov]
  · simp [send_transaction, send_tail, CallLog.empty, if_pos hgt]

/-- C1 amended witness: stored value 5, remote count 9; retry success leaves
stored value 6, retry failure leaves stored value 9. -/
theorem c1_amended_witness :
    send_transaction (ε := Nat) (η := Nat) ⟨true, 5⟩ (some 5) (.ok 0) (.error 0) (.ok 9) (.ok 42)
      = .ok 42 ⟨true, 6⟩ ⟨1, [some 5, some 5], 0⟩ ∧
    send_transaction (ε := Nat) (η := Nat) ⟨true, 5⟩ (some 5) (.ok 0) (.error 0) (.ok 9) (.error 3)
      = .err (.MiddlewareError 3) ⟨true, 9⟩ ⟨1, [some 5, some 5], 0⟩ :=
  c1_amended ⟨true, 5⟩ 5 9 (.ok 0) 0 3 42 (by decide) (by decide)

end EthersNonce

namespace EthersNonce

/-- C6: every successful `fill_transaction` leaves the stored state at exactly
the entry stored value plus one, with the initialized flag untouched — in
particular an externally supplied explicit nonce on the draft is never written
into the stored state (the increment always starts from the value read at
entry; the lazily-initialized case never completes successfully, so the claim
holds for it vacuously). -/
theorem c6_increment {ε : Type} (st : NonceState) (txN : Option Nat)
    (ic : Except ε Nat) (fr : Except ε Unit) (outN : Option Nat)
    (st' : NonceState) (l : CallLog)
    (h : fill_transaction st txN ic fr = .ok outN st' l) :
    st' = ⟨st.initialized, st.nonce + 1⟩ := by
  cases txN with
  | none =>
    simp only [fill_transaction, get_or_init_nonce] at h
    cases hI : st.initialized <;> rw [hI] at h <;> simp only [Bool.not_true, Bool.not_false] at h
    · cases ic with
      | error e => simp at h
      | ok n => simp at h
    · simp at h
  | some E =>
    simp only [fill_transaction, fill_tail] at h
    cases fr with
    | error e => simp at h
    | ok u =>
      simp only at h
      cases hA : u256AddOne st.nonce with
      | none => rw [hA] at h; simp at h
      | some n1 =>
        rw [hA] at h
        simp only [MWOutcome.ok.injEq] at h
        unfold u256AddOne at hA
        by_cases hov : st.nonce + 1 < U256_LIMIT
        · rw [if_pos hov] at hA
          cases hA
          cases h.2.1
          rfl
        · rw [if_neg hov] at hA
          cases hA

/-- C6 witness: stored value 5, draft carries explicit nonce 9 (different
from the stored value); the successful fill leaves stored state (true, 6). -/
theorem c6_increment_witness :
    (⟨true, 6⟩ : NonceState)
      = ⟨(⟨true, 5⟩ : NonceState).initialized, (⟨true, 5⟩ : NonceState).nonce + 1⟩ :=
  c6_increment (ε := Nat) ⟨true, 5⟩ (some 9) (.ok 0) (.ok ()) (some 9) ⟨true, 6⟩ ⟨0, [], 1⟩ rfl

/-- C7: (1) a fill whose inner field-fill errors returns that error wrapped
once, with the stored state unchanged; (2) an initialization call on an
uninitialized manager whose remote-count query errors returns that error
wrapped once, with the stored state unchanged (so `initialized` stays false
and a later call retries cleanly); (3) the same holds when the failing lazy
initialization happens inside a nonce-less fill. -/
theorem c7_error_no_mutation {ε : Type} (st stI : NonceState) (E : Nat)
    (ic : Except ε Nat) (fe qe : ε) (fr : Except ε Unit)
    (hI : stI.initialized = false) :
    fill_transaction st (some E) ic (.error fe)
      = .err (.MiddlewareError fe) st ⟨0, [], 1⟩ ∧
    initialize_nonce stI (.error qe) = .err (.MiddlewareError qe) stI ⟨1, [], 0⟩ ∧
    fill_transaction stI none (.error qe) fr = .err (.MiddlewareError qe) stI ⟨1, [], 0⟩ := by
  refine ⟨?_, ?_, ?_⟩
  · simp [fill_transaction, fill_tail, CallLog.empty]
  · simp [initialize_nonce, get_or_init_nonce, hI, CallLog.empty]
  · simp [fill_transaction, get_or_init_nonce, hI, CallLog.empty]

/-- C7 witness: fill with explicit nonce 10 on state (true, 4) whose inner
fill errors; initialization and nonce-less fill on uninitialized state
(false, 3) whose remote query errors.  All three return the wrapped error and
leave the state unchanged. -/
theorem c7_error_no_mutation_witness :
    fill_transaction (ε := Nat) ⟨true, 4⟩ (some 10) (.ok 0) (.error 5)
      = .err (.MiddlewareError 5) ⟨true, 4⟩ ⟨0, [], 1⟩ ∧
    initialize_nonce (ε := Nat) ⟨false, 3⟩ (.error 6)
      = .err (.MiddlewareError 6) ⟨false, 3⟩ ⟨1, [], 0⟩ ∧
    fill_transaction (ε := Nat) ⟨false, 3⟩ none (.error 6) (.ok ())
      = .err (.MiddlewareError 6) ⟨false, 3⟩ ⟨1, [], 0⟩ :=
  c7_error_no_mutation ⟨true, 4⟩ ⟨false, 3⟩ 10 (.ok 0) 5 6 (.ok ()) rfl

/-- C9: on an uninitialized manager, a successful `initialize_nonce` performs
exactly one remote query, stores the remote count and returns it; afterwards
every further `initialize_nonce` call performs no remote query at all,
leaves the stored state unchanged and returns the stored value — idempotence
after the first success, with the remote query running at most once. -/
theorem c9_init_idempotent {ε : Type} (st : NonceState) (n : Nat)
    (cr : Except ε Nat) (hI : st.initialized = false) :
    initialize_nonce (ε := ε) st (.ok n) = .ok n ⟨true, n⟩ ⟨1, [], 0⟩ ∧
    initialize_nonce ⟨true, n⟩ cr = .ok n ⟨true, n⟩ ⟨0, [], 0⟩ := by
  constructor
  · simp [initialize_nonce, get_or_init_nonce, hI, CallLog.empty]
  · simp [initialize_nonce, get_or_init_nonce, CallLog.empty]

/-- C9 witness: fresh manager, remote count 5: first initialization queries
once and stores 5; a second initialization (whatever the oracle would have
answered) queries zero times, returns 5 and leaves the state at (true, 5). -/
theorem c9_init_idempotent_witness :
    initialize_nonce (ε := Nat) ⟨false, 0⟩ (.ok 5) = .ok 5 ⟨true, 5⟩ ⟨1, [], 0⟩ ∧
    initialize_nonce (ε := Nat) ⟨true, 5⟩ (.error 7) = .ok 5 ⟨true, 5⟩ ⟨0, [], 0⟩ :=
  c9_init_idempotent ⟨false, 0⟩ 5 (.error 7) rfl

end EthersNonce

namespace EthersNonce

/-- `send_finish` does not touch the call log. -/
theorem send_finish_lg {ε η : Type} (st : NonceState) (l : CallLog)
    (nonce : Nat) (h : η) : (send_finish (ε := ε) st l nonce h).lg = l := by
  cases hA : u256AddOne nonce <;> simp [send_finish, hA, MWOutcome.lg]

/-- `send_tail` broadcasts at most twice beyond what the log already holds. -/
theorem send_tail_sentNonces_le {ε η : Type} (st : NonceState) (l : CallLog)
    (nonce : Nat) (txN : Option Nat) (s1 : Except ε η) (q : Except ε Nat)
    (s2 : Except ε η) :
    (send_tail st l nonce txN s1 q s2).lg.sentNonces.length
      ≤ l.sentNonces.length + 2 := by
  cases s1 with
  | ok h =>
    simp [send_tail, send_finish_lg]
  | error err =>
    cases q with
    | error qe => simp [send_tail, MWOutcome.lg]
    | ok current =>
      by_cases hc : nonce < current
      · cases s2 with
        | ok h => simp [send_tail, hc, send_finish_lg]
        | error e2 => simp [send_tail, hc, MWOutcome.lg]
      · simp [send_tail, hc, MWOutcome.lg]

/-- `get_or_init_nonce` never broadcasts: the sent-nonce log is untouched. -/
theorem get_or_init_nonce_sentNonces {ε : Type} (hw : Bool) (st : NonceState)
    (l : CallLog) (cr : Except ε Nat) :
    (get_or_init_nonce hw st l cr).lg.sentNonces = l.sentNonces := by
  unfold get_or_init_nonce
  cases st.initialized <;> cases cr <;> cases hw <;> simp [MWOutcome.lg]

/-- C8: a single send call invokes the inner broadcast at most twice (so no
more than one retry ever happens), and when the single retry fails its error
is returned directly, with no further recovery: the final log still shows one
remote query and two broadcasts. -/
theorem c8_at_most_one_retry {ε η : Type} (st : NonceState) (txN : Option Nat)
    (E R : Nat) (ic : Except ε Nat) (s1 s2 : Except ε η) (q : Except ε Nat)
    (err e2 : ε) (hgt : st.nonce < R) :
    (send_transaction st txN ic s1 q s2).lg.sentNonces.length ≤ 2 ∧
    send_transaction (η := η) st (some E) ic (.error err) (.ok R) (.error e2)
      = .err (.MiddlewareError e2) ⟨st.initialized, R⟩ ⟨1, [some E, some st.nonce], 0⟩ := by
  constructor
  · unfold send_transaction
    cases txN with
    | some E2 =>
      have h1 := send_tail_sentNonces_le st CallLog.empty st.nonce (some E2) s1 q s2
      simpa [CallLog.empty] using h1
    | none =>
      cases hG : get_or_init_nonce true st CallLog.empty ic with
      | ok n st1 l1 =>
        have h2 := get_or_init_nonce_sentNonces true st CallLog.empty ic
        rw [hG] at h2
        simp only [MWOutcome.lg, CallLog.empty] at h2
        have h1 := send_tail_sentNonces_le st1 l1 n (some n) s1 q s2
        rw [h2] at h1
        simpa using h1
      | err e st1 l1 =>
        have h2 := get_or_init_nonce_sentNonces true st CallLog.empty ic
        rw [hG] at h2
        simp only [MWOutcome.lg, CallLog.empty] at h2
        simp [MWOutcome.lg, h2]
      | diverge st1 l1 =>
        have h2 := get_or_init_nonce_sentNonces true st CallLog.empty ic
        rw [hG] at h2
        simp only [MWOutcome.lg, CallLog.empty] at h2
        simp [MWOutcome.lg, h2]
      | panicked st1 l1 =>
        have h2 := get_or_init_nonce_sentNonces true st CallLog.empty ic
        rw [hG] at h2
        simp only [MWOutcome.lg, CallLog.empty] at h2
        simp [MWOutcome.lg, h2]
  · simp [send_transaction, send_tail, CallLog.empty, if_pos hgt]

/-- C8 witness: stored value 4, explicit nonce 4, first broadcast fails,
remote count 8 > 4, retry fails with error 13: the log records exactly two
broadcasts and the retry's error is what the call returns. -/
theorem c8_at_most_one_retry_witness :
    (send_transaction (ε := Nat) (η := Nat) ⟨true, 4⟩ (some 4) (.ok 0) (.error 2) (.ok 8) (.error 13)).lg.sentNonces.length ≤ 2 ∧
    send_transaction (ε := Nat) (η := Nat) ⟨true, 4⟩ (some 4) (.ok 0) (.error 2) (.ok 8) (.error 13)
      = .err (.MiddlewareError 13) ⟨true, 8⟩ ⟨1, [some 4, some 4], 0⟩ :=
  c8_at_most_one_retry ⟨true, 4⟩ (some 4) 4 8 (.ok 0) (.error 2) (.error 13) (.ok 8) 2 13 (by decide)

end EthersNonce
